import Mathlib

/-!
Verification of the dep-sync dependency-update engine.

Shallow embedding of the repository's core modules:
  * src/version.js  — version parsing, formatting, comparison, change
    classification and next-version suggestion (pure string functions,
    embedded over List Char);
  * src/bump.js     — the multi-project dependency update engine
    (bumpDependency) and the project version bump engine
    (bumpProjectVersion), embedded with an explicit filesystem state;
  * bin/dep-sync.js — the push phase of main (the loop that deduplicates
    repository roots and pushes each one unless it is behind its remote).

JavaScript strings are modelled as List Char (so that the character-level
regular-expression matching of parseVersion is explicit); numbers are Nat,
with the JavaScript rendering of integers modelled explicitly (plain
decimal below 10^21, exponential notation from 10^21 on, per ECMAScript
Number::toString) and the round-trip theorem restricted to the
safe-integer range where parseInt is exact; JavaScript truthiness of
strings (empty string is falsy) is modelled explicitly where the source
relies on it.
-/

namespace DepSync

/-- Abbreviation used throughout: a JavaScript string, as a list of
characters. -/
abbrev JStr := List Char

/-- Convert a Lean string literal to the embedding's string type. -/
def strL (s : String) : JStr := s.toList

/-! ## src/version.js -/

/-- The result of parseVersion in src/version.js:
major/minor/patch numbers, an optional prerelease tag and an optional
prerelease ordinal.  Fields absent in the JavaScript object (value
undefined) are none. -/
structure Parsed where
  major : Nat
  minor : Nat
  patch : Nat
  prerelease : Option JStr
  prereleaseNum : Option Nat
deriving DecidableEq, Repr

/-- JavaScript truthiness of an optional string: undefined and the empty
string are falsy, every other string is truthy. -/
def strTruthy : Option JStr → Bool
  | none => false
  | some t => !t.isEmpty

/-- parseInt(digits, 10) on a list of decimal digit characters, as used
on the numeric capture groups of parseVersion, modelled as the exact
value of the numeral.  The JavaScript result is a double and equals this
exact value only for numerals up to Number.MAX_SAFE_INTEGER (2^53 - 1)
and for larger numerals whose value happens to be exactly representable
(such as 10^21): the round-trip theorem below is restricted to the safe
range, and the round-trip counterexample evaluates at 10^21 where the
double is exact. -/
def digitsToNat (l : JStr) : Nat :=
  l.foldl (fun a c => a * 10 + (c.toNat - 48)) 0

/-- version.replace of the leading v, caret or tilde in parseVersion
(the regex strips at most one such character, only at the start). -/
def stripLeadMark (s : JStr) : JStr :=
  match s with
  | [] => []
  | c :: rest => if c = 'v' ∨ c = '^' ∨ c = '~' then rest else c :: rest

/-- parseVersion from src/version.js.  The regex
  (caret)(\d+)\.(\d+)\.(\d+)(?:-([a-zA-Z]+)(?:[.-](\d+))?)?$
is matched deterministically: each greedy group is followed by a
character its own class cannot contain, so takeWhile/dropWhile implement
it exactly. -/
def parseVersion (version : JStr) : Option Parsed :=
  let clean := stripLeadMark version
  let d1 := clean.takeWhile Char.isDigit
  let r1 := clean.dropWhile Char.isDigit
  if d1 = [] then none else
  match r1 with
  | [] => none
  | c1 :: r2 =>
    if c1 ≠ '.' then none else
    let d2 := r2.takeWhile Char.isDigit
    let r3 := r2.dropWhile Char.isDigit
    if d2 = [] then none else
    match r3 with
    | [] => none
    | c2 :: r4 =>
      if c2 ≠ '.' then none else
      let d3 := r4.takeWhile Char.isDigit
      let r5 := r4.dropWhile Char.isDigit
      if d3 = [] then none else
      match r5 with
      | [] => some ⟨digitsToNat d1, digitsToNat d2, digitsToNat d3, none, none⟩
      | c3 :: r6 =>
        if c3 ≠ '-' then none else
        let tag := r6.takeWhile Char.isAlpha
        let r7 := r6.dropWhile Char.isAlpha
        if tag = [] then none else
        match r7 with
        | [] => some ⟨digitsToNat d1, digitsToNat d2, digitsToNat d3, some tag, none⟩
        | sep :: r8 =>
          if sep = '.' ∨ sep = '-' then
            let d4 := r8.takeWhile Char.isDigit
            let r9 := r8.dropWhile Char.isDigit
            if d4 = [] then none else
            match r9 with
            | [] => some ⟨digitsToNat d1, digitsToNat d2, digitsToNat d3, some tag,
                          some (digitsToNat d4)⟩
            | _ => none
          else none

/-- The character for a single decimal digit value. -/
def digitChar (d : Nat) : Char :=
  match d with
  | 0 => '0' | 1 => '1' | 2 => '2' | 3 => '3' | 4 => '4'
  | 5 => '5' | 6 => '6' | 7 => '7' | 8 => '8' | _ => '9'

/-- Decimal digits of n in little-endian order; the first argument is
fuel bounding the recursion depth (n itself always suffices). -/
def natDigitsRev : Nat → Nat → JStr
  | 0, _ => []
  | _ + 1, 0 => []
  | fuel + 1, n + 1 => digitChar ((n + 1) % 10) :: natDigitsRev fuel ((n + 1) / 10)

/-- The plain (fixed-notation) decimal digits of n.  This is how
JavaScript renders a non-negative integer only below 10^21; the full
interpolation semantics, with the exponential branch at and above that
threshold, is jsNumToChars. -/
def natToChars (n : Nat) : JStr :=
  if n = 0 then ['0'] else (natDigitsRev n n).reverse

/-- The exponential rendering of an integer per ECMAScript
Number::toString (6.1.6.1.20): the significant digits of n (trailing
zeros stripped), a decimal point when there are at least two of them,
then e+ and the decimal exponent.  This agrees with JavaScript exactly
when the double's value is the integer n and n's own digit string,
trailing zeros stripped, is its shortest round-trip representation —
true in particular of 10^21, the only point at which this branch is
evaluated in this development. -/
def jsExpChars (n : Nat) : JStr :=
  let ds := natDigitsRev n n
  let s := ds.dropWhile (fun c => c == '0')
  let exp := ds.length - 1
  match s.reverse with
  | [] => ['0']
  | [d] => d :: 'e' :: '+' :: natToChars exp
  | d :: rest => d :: '.' :: rest ++ 'e' :: '+' :: natToChars exp

/-- JavaScript template-string interpolation of a non-negative integer
number: plain decimal below 10^21, exponential notation from 10^21 on
(ECMAScript Number::toString). -/
def jsNumToChars (n : Nat) : JStr :=
  if n < 10 ^ 21 then natToChars n else jsExpChars n

/-- formatVersion from src/version.js, interpolating the numeric fields
with the JavaScript number rendering.  The prerelease tag is appended
only when truthy (JavaScript: if (parsed.prerelease)), the ordinal when
it is not undefined. -/
def formatVersion (p : Parsed) : JStr :=
  let base := jsNumToChars p.major ++ '.' :: jsNumToChars p.minor ++ '.' ::
    jsNumToChars p.patch
  match p.prerelease with
  | none => base
  | some tag =>
    if tag.isEmpty then base
    else
      base ++ '-' :: (tag ++
        (match p.prereleaseNum with
         | none => []
         | some k => '.' :: jsNumToChars k))

/-- The five classification outcomes of getVersionChangeType. -/
inductive ChangeType
  | major
  | minor
  | patch
  | prerelease
  | unknown
deriving DecidableEq, Repr

/-- getVersionChangeType from src/version.js, with the source's exact
rule order (prerelease on the new version first, then major, minor,
patch increases, then the old-had-a-prerelease fallback). -/
def getVersionChangeType (oldVersion newVersion : JStr) : ChangeType :=
  match parseVersion oldVersion, parseVersion newVersion with
  | some oldParsed, some newParsed =>
    if strTruthy newParsed.prerelease then .prerelease
    else if newParsed.major > oldParsed.major then .major
    else if newParsed.major = oldParsed.major ∧ newParsed.minor > oldParsed.minor then .minor
    else if newParsed.major = oldParsed.major ∧ newParsed.minor = oldParsed.minor ∧
            newParsed.patch > oldParsed.patch then .patch
    else if strTruthy oldParsed.prerelease ∧ ¬ strTruthy newParsed.prerelease then .patch
    else .unknown
  | _, _ => .unknown

/-- suggestNextVersion from src/version.js, interpolating the numeric
fields with the JavaScript number rendering.  The bump type is the raw
string of the switch statement; an unrecognized type falls through to
null.  The prerelease branch requires strict equality of the current tag
with the requested tag and a present ordinal. -/
def suggestNextVersion (currentVersion : JStr) (type : JStr) (prereleaseTag : JStr) :
    Option JStr :=
  match parseVersion currentVersion with
  | none => none
  | some parsed =>
    if type = strL "major" then
      some (jsNumToChars (parsed.major + 1) ++ strL ".0.0")
    else if type = strL "minor" then
      some (jsNumToChars parsed.major ++ '.' :: jsNumToChars (parsed.minor + 1) ++
            strL ".0")
    else if type = strL "patch" then
      if strTruthy parsed.prerelease then
        some (jsNumToChars parsed.major ++ '.' :: jsNumToChars parsed.minor ++ '.' ::
              jsNumToChars parsed.patch)
      else
        some (jsNumToChars parsed.major ++ '.' :: jsNumToChars parsed.minor ++ '.' ::
              jsNumToChars (parsed.patch + 1))
    else if type = strL "prerelease" then
      if parsed.prerelease = some prereleaseTag ∧ parsed.prereleaseNum.isSome then
        some (jsNumToChars parsed.major ++ '.' :: jsNumToChars parsed.minor ++ '.' ::
              jsNumToChars parsed.patch ++ '-' :: prereleaseTag ++ '.' ::
              jsNumToChars (parsed.prereleaseNum.getD 0 + 1))
      else
        some (jsNumToChars parsed.major ++ '.' :: jsNumToChars parsed.minor ++ '.' ::
              jsNumToChars (parsed.patch + 1) ++ '-' :: prereleaseTag ++ '.' ::
              jsNumToChars 0)
    else
      none

/-- Lexicographic (code-unit) order on JavaScript strings, used by the
string comparison a < b inside compareVersions. -/
def jstrLt (a b : JStr) : Bool :=
  match a, b with
  | [], [] => false
  | [], _ :: _ => true
  | _ :: _, [] => false
  | c :: a, d :: b => if c = d then jstrLt a b else decide (c < d)

/-- compareVersions from src/version.js.  Unparseable inputs compare
equal (return 0); the prerelease-ordinal comparison coerces a missing
ordinal with the JavaScript expression (x or-else 0). -/
def compareVersions (a b : JStr) : Int :=
  match parseVersion a, parseVersion b with
  | some pa, some pb =>
    if pa.major ≠ pb.major then (if pa.major < pb.major then -1 else 1)
    else if pa.minor ≠ pb.minor then (if pa.minor < pb.minor then -1 else 1)
    else if pa.patch ≠ pb.patch then (if pa.patch < pb.patch then -1 else 1)
    else if strTruthy pa.prerelease ∧ ¬ strTruthy pb.prerelease then -1
    else if ¬ strTruthy pa.prerelease ∧ strTruthy pb.prerelease then 1
    else if strTruthy pa.prerelease ∧ strTruthy pb.prerelease then
      if pa.prerelease ≠ pb.prerelease then
        (if jstrLt (pa.prerelease.getD []) (pb.prerelease.getD []) then -1 else 1)
      else if pa.prereleaseNum ≠ pb.prereleaseNum then
        (if pa.prereleaseNum.getD 0 < pb.prereleaseNum.getD 0 then -1 else 1)
      else 0
    else 0
  | _, _ => 0

/-! ## src/bump.js -/

/-- The four dependency categories of a manifest, the map keys used by
src/bump.js. -/
inductive DepType
  | dependencies
  | devDependencies
  | peerDependencies
  | optionalDependencies
deriving DecidableEq, Repr

/-- The DEP_TYPES constant of src/bump.js, in source order. -/
def DEP_TYPES : List DepType :=
  [.dependencies, .devDependencies, .peerDependencies, .optionalDependencies]

/-- One dependency category of a manifest: an ordered map from package
name to version-range string (a JavaScript object). -/
abbrev DepMap := List (String × JStr)

/-- JavaScript property assignment obj.k = v on an ordered object:
replaces the value at an existing key in place, otherwise appends. -/
def setKey (l : DepMap) (k : String) (v : JStr) : DepMap :=
  match l with
  | [] => [(k, v)]
  | (k', v') :: rest => if k' = k then (k, v) :: rest else (k', v') :: setKey rest k v

/-- A parsed package.json as far as src/bump.js reads it: the four
dependency categories (absent key modelled as none) and the version
field.  Unrelated manifest fields are not consulted by the engine and
are omitted from the model. -/
structure PackageJson where
  dependencies : Option DepMap
  devDependencies : Option DepMap
  peerDependencies : Option DepMap
  optionalDependencies : Option DepMap
  version : Option JStr
deriving DecidableEq, Repr

/-- Dynamic category access pkgJson(depType). -/
def getDepMap (m : PackageJson) : DepType → Option DepMap
  | .dependencies => m.dependencies
  | .devDependencies => m.devDependencies
  | .peerDependencies => m.peerDependencies
  | .optionalDependencies => m.optionalDependencies

/-- Dynamic category update pkgJson(depType)(packageName) = v. -/
def setDepEntry (m : PackageJson) (t : DepType) (k : String) (v : JStr) : PackageJson :=
  match t, getDepMap m t with
  | _, none => m
  | .dependencies, some d => { m with dependencies := some (setKey d k v) }
  | .devDependencies, some d => { m with devDependencies := some (setKey d k v) }
  | .peerDependencies, some d => { m with peerDependencies := some (setKey d k v) }
  | .optionalDependencies, some d => { m with optionalDependencies := some (setKey d k v) }

/-- The state of one project's package.json on disk: missing, present
but unreadable/unparseable, or readable with a writability flag (the
flag models whether a writeFileSync on it would succeed). -/
inductive FileState
  | absent
  | unreadable
  | file (content : PackageJson) (writable : Bool)
deriving DecidableEq, Repr

/-- The filesystem, mapping each project directory to the state of its
package.json (path.resolve(projectPath, "package.json") is injective on
project directories, so keying by the directory is faithful). -/
abbrev FS := String → FileState

/-- Overwrite one project's manifest state. -/
def FS.update (fs : FS) (k : String) (st : FileState) : FS :=
  fun p => if p = k then st else fs p

/-- The manifest path reported in result entries. -/
def pkgJsonPathOf (projectPath : String) : String := projectPath ++ "/package.json"

/-- getVersionForType from src/bump.js: peerDependencies always get the
caret form, every other category follows the exact flag. -/
def getVersionForType (version : JStr) (exact : Bool) (depType : DepType) : JStr :=
  if depType = DepType.peerDependencies then '^' :: version
  else if exact then version else '^' :: version

/-- One element of the foundIn list built per project: the category, the
existing version string and the computed new one.  (The shortType field
of the source is display-only and omitted.) -/
structure Found where
  type : DepType
  oldVersion : JStr
  newVersion : JStr
deriving DecidableEq, Repr

/-- One element of an updated entry's change list; the source names the
version fields from/to. -/
structure Change where
  type : DepType
  fromVersion : JStr
  toVersion : JStr
deriving DecidableEq, Repr

/-- An entry of results.updated. -/
structure UpdatedEntry where
  project : String
  changes : List Change
  filePath : String
deriving DecidableEq, Repr

/-- An entry of results.notFound. -/
structure NotFoundEntry where
  project : String
deriving DecidableEq, Repr

/-- An entry of results.errors. -/
structure ErrorEntry where
  project : String
  reason : String
deriving DecidableEq, Repr

/-- The results object of bumpDependency, exactly the three lists the
source initializes and returns (the source has no skipped list). -/
structure Results where
  updated : List UpdatedEntry
  notFound : List NotFoundEntry
  errors : List ErrorEntry
deriving DecidableEq, Repr

/-- The classification of one project by one loop iteration. -/
inductive Outcome
  | updated (e : UpdatedEntry)
  | notFound (e : NotFoundEntry)
  | errored (e : ErrorEntry)
deriving DecidableEq, Repr

/-- Record an outcome at the front of the results built for the
remaining projects (the loop pushes in input order). -/
def Outcome.addTo : Outcome → Results → Results
  | .updated e, r => { r with updated := e :: r.updated }
  | .notFound e, r => { r with notFound := e :: r.notFound }
  | .errored e, r => { r with errors := e :: r.errors }

/-- The foundIn loop of bumpDependency: scan the active categories for
the package and compute each category's new version string. -/
def findPackage (activeDeps : List DepType) (pkgJson : PackageJson)
    (packageName : String) (version : JStr) (exact : Bool) : List Found :=
  activeDeps.filterMap (fun depType =>
    match getDepMap pkgJson depType with
    | none => none
    | some deps =>
      match deps.lookup packageName with
      | none => none
      | some oldVersion =>
        some ⟨depType, oldVersion, getVersionForType version exact depType⟩)

/-- The body of the per-project loop of bumpDependency: classify one
project and perform its write when not in dry-run mode.  The project is
identified by its path (the source displays basename(resolve(path))). -/
def processProject (packageName : String) (version : JStr) (exact dryRun : Bool)
    (activeDeps : List DepType) (fs : FS) (projectPath : String) : Outcome × FS :=
  match fs projectPath with
  | .absent => (.errored ⟨projectPath, "package.json not found"⟩, fs)
  | .unreadable => (.errored ⟨projectPath, "failed to read package.json"⟩, fs)
  | .file pkgJson writable =>
    let foundIn := findPackage activeDeps pkgJson packageName version exact
    if foundIn = [] then (.notFound ⟨projectPath⟩, fs)
    else
      let entry : UpdatedEntry :=
        ⟨projectPath, foundIn.map (fun f => ⟨f.type, f.oldVersion, f.newVersion⟩),
         pkgJsonPathOf projectPath⟩
      if dryRun then (.updated entry, fs)
      else
        let newPkg := foundIn.foldl
          (fun m f => setDepEntry m f.type packageName f.newVersion) pkgJson
        if writable then (.updated entry, fs.update projectPath (.file newPkg writable))
        else (.errored ⟨projectPath, "failed to write package.json"⟩, fs)

/-- The per-project loop of bumpDependency over the path list, threading
the filesystem state. -/
def bumpLoop (packageName : String) (version : JStr) (exact dryRun : Bool)
    (activeDeps : List DepType) (fs : FS) : List String → Results × FS
  | [] => (⟨[], [], []⟩, fs)
  | p :: rest =>
    let step := processProject packageName version exact dryRun activeDeps fs p
    let r := bumpLoop packageName version exact dryRun activeDeps step.2 rest
    (step.1.addTo r.1, r.2)

/-- bumpDependency from src/bump.js: filter the active categories by the
noPeer flag and run the per-project loop. -/
def bumpDependency (packageName : String) (version : JStr) (paths : List String)
    (exact dryRun noPeer : Bool) (fs : FS) : Results × FS :=
  let activeDeps := if noPeer
    then DEP_TYPES.filter (fun t => t ≠ DepType.peerDependencies)
    else DEP_TYPES
  bumpLoop packageName version exact dryRun activeDeps fs paths

/-- The result object of bumpProjectVersion. -/
structure BumpResult where
  success : Bool
  oldVersion : Option JStr
  newVersion : Option JStr
  filePath : Option String
  error : Option String
deriving DecidableEq, Repr

/-- Overwrite the version field, the only mutation bumpProjectVersion
performs on the manifest. -/
def setVersionField (m : PackageJson) (v : JStr) : PackageJson :=
  { m with version := some v }

/-- bumpProjectVersion from src/bump.js.  In apply mode it assigns the
version it computed itself with suggestNextVersion and writes the
manifest directly with writeFileSync; there is no external command and
no re-read.  A falsy (absent or empty) version field is rejected; the
error strings of the two catch paths stand for the thrown messages. -/
def bumpProjectVersion (projectPath : String) (bumpType : JStr) (prereleaseTag : JStr)
    (dryRun : Bool) (fs : FS) : BumpResult × FS :=
  match fs projectPath with
  | .absent => (⟨false, none, none, none, some "package.json not found"⟩, fs)
  | .unreadable => (⟨false, none, none, none, some "read failed"⟩, fs)
  | .file pkgJson writable =>
    match pkgJson.version with
    | none => (⟨false, none, none, none, some "No version field in package.json"⟩, fs)
    | some oldVersion =>
      if oldVersion.isEmpty then
        (⟨false, none, none, none, some "No version field in package.json"⟩, fs)
      else
        match suggestNextVersion oldVersion bumpType prereleaseTag with
        | none =>
          (⟨false, none, none, none,
            some ("Could not calculate " ++ String.mk bumpType ++ " version from " ++
                  String.mk oldVersion)⟩, fs)
        | some newVersion =>
          if dryRun then
            (⟨true, some oldVersion, some newVersion, some (pkgJsonPathOf projectPath),
              none⟩, fs)
          else if writable then
            (⟨true, some oldVersion, some newVersion, some (pkgJsonPathOf projectPath),
              none⟩,
             fs.update projectPath (.file (setVersionField pkgJson newVersion) writable))
          else (⟨false, none, none, none, some "write failed"⟩, fs)

/-! ### Concrete fixtures used by counterexamples and witnesses -/

/-- Project A of the spec's three-project example: the package sits in
two categories, below the target. -/
def pkgA : PackageJson :=
  ⟨some [("react", strL "^18.1.0")], some [("react", strL "^18.1.0")], none, none,
   some (strL "1.0.0")⟩

/-- Project B: lacks the package entirely. -/
def pkgB : PackageJson :=
  ⟨some [("lodash", strL "4.17.0")], none, none, none, some (strL "1.0.0")⟩

/-- Project C: already holds exactly the computed target string. -/
def pkgC : PackageJson :=
  ⟨some [("react", strL "^18.2.0")], none, none, none, some (strL "1.0.0")⟩

/-- Filesystem with the three writable projects A, B, C. -/
def fsABC : FS := fun p =>
  if p = "A" then .file pkgA true
  else if p = "B" then .file pkgB true
  else if p = "C" then .file pkgC true
  else .absent

/-- Filesystem with a single writable project D whose ordinary
dependency on the package is below the target. -/
def fsD : FS := fun p =>
  if p = "D" then .file ⟨some [("react", strL "1.0.0")], none, none, none,
                         some (strL "1.0.0")⟩ true
  else .absent

/-! ## bin/dep-sync.js — the push phase of main

The push loop walks the accumulated updated file paths, skips paths
outside a git working tree, deduplicates repository roots, and for each
new root either records a would-be push (dry run), skips it when the
local branch is behind its remote, or invokes pushToRemote and records
success or failure.  The git helpers live in src/git.js, which only
declares the command surface; they are modelled as oracles in GitEnv. -/

/-- The git query surface consumed by the push loop (path.dirname and
path.basename included), modelled as pure oracles: isGitRepo and
getGitRoot classify a directory, isBehindRemote and pushSucceeds give
the outcome the external git commands would report for a root. -/
structure GitEnv where
  dirname : String → String
  basename : String → String
  isGitRepo : String → Bool
  getGitRoot : String → String
  isBehindRemote : String → Bool
  pushSucceeds : String → Bool

/-- The pushResults object of main: success, failed and skipped lists of
repository display names. -/
structure PushResults where
  success : List String
  failed : List String
  skipped : List String
deriving DecidableEq, Repr

/-- The push loop over the updated file paths.  seen is the seenRoots
set; the second component of the result is the trace of repository
roots on which pushToRemote was actually invoked. -/
def pushLoop (env : GitEnv) (dryRun : Bool) :
    List String → List String → PushResults × List String
  | [], _ => (⟨[], [], []⟩, [])
  | f :: rest, seen =>
    let dir := env.dirname f
    if env.isGitRepo dir = false then pushLoop env dryRun rest seen
    else
      let root := env.getGitRoot dir
      if root ∈ seen then pushLoop env dryRun rest seen
      else
        let repoName := env.basename root
        let r := pushLoop env dryRun rest (root :: seen)
        if dryRun then ({ r.1 with success := repoName :: r.1.success }, r.2)
        else if env.isBehindRemote root then
          ({ r.1 with skipped := repoName :: r.1.skipped }, r.2)
        else if env.pushSucceeds root then
          ({ r.1 with success := repoName :: r.1.success }, root :: r.2)
        else ({ r.1 with failed := repoName :: r.1.failed }, root :: r.2)

/-- The push phase entered when push was requested and changes
accumulated. -/
def pushPhase (env : GitEnv) (dryRun : Bool) (allUpdatedFiles : List String) :
    PushResults × List String :=
  pushLoop env dryRun allUpdatedFiles []

/-- The distinct repository roots the push loop processes, in first
appearance order, continuing from an already-seen set. -/
def newRoots (env : GitEnv) : List String → List String → List String
  | [], _ => []
  | f :: rest, seen =>
    let dir := env.dirname f
    if env.isGitRepo dir = false then newRoots env rest seen
    else
      let root := env.getGitRoot dir
      if root ∈ seen then newRoots env rest seen
      else root :: newRoots env rest (root :: seen)

/-- The distinct repository roots touched by the accumulated changes. -/
def dedupRepoRoots (env : GitEnv) (files : List String) : List String :=
  newRoots env files []

/-- Characterization of the live (non-dry-run) push loop: each processed
root is classified by the behind check first and the push outcome
second, and pushToRemote runs exactly on the not-behind roots. -/
theorem pushLoop_live_spec (env : GitEnv) (files seen : List String) :
    pushLoop env false files seen =
      (⟨((newRoots env files seen).filter
           (fun r => !env.isBehindRemote r && env.pushSucceeds r)).map env.basename,
        ((newRoots env files seen).filter
           (fun r => !env.isBehindRemote r && !env.pushSucceeds r)).map env.basename,
        ((newRoots env files seen).filter (fun r => env.isBehindRemote r)).map env.basename⟩,
       (newRoots env files seen).filter (fun r => !env.isBehindRemote r)) := by
  induction files generalizing seen with
  | nil => simp [pushLoop, newRoots]
  | cons f rest ih =>
    simp only [pushLoop, newRoots]
    by_cases h1 : env.isGitRepo (env.dirname f) = false
    · simp [h1, ih]
    · simp only [h1, if_false]
      by_cases h2 : env.getGitRoot (env.dirname f) ∈ seen
      · simp [h2, ih]
      · simp only [h2, if_false, if_true, ih]
        by_cases h3 : env.isBehindRemote (env.getGitRoot (env.dirname f)) = true
        · simp [h3, List.filter]
        · simp only [Bool.not_eq_true] at h3
          by_cases h4 : env.pushSucceeds (env.getGitRoot (env.dirname f)) = true
          · simp [h3, h4, List.filter]
          · simp only [Bool.not_eq_true] at h4
            simp [h3, h4, List.filter]

/-! ## Dry run versus live run of bumpDependency -/

/-- A project's manifest can be written: true unless the file exists,
parses, and carries a false writable flag.  (Absent or unreadable
manifests are never written, so they count as unconstrained.) -/
def writableAt (fs : FS) (p : String) : Bool :=
  match fs p with
  | .file _ w => w
  | _ => true

/-- processProject only consults the filesystem at its own project
path. -/
theorem processProject_congr (packageName : String) (version : JStr)
    (exact dryRun : Bool) (activeDeps : List DepType) (fs₁ fs₂ : FS) (p : String)
    (h : fs₁ p = fs₂ p) :
    (processProject packageName version exact dryRun activeDeps fs₁ p).1 =
    (processProject packageName version exact dryRun activeDeps fs₂ p).1 := by
  simp only [processProject, h]
  cases hfs : fs₂ p with
  | absent => simp [hfs]
  | unreadable => simp [hfs]
  | file m w =>
    simp only [hfs]
    by_cases hf : findPackage activeDeps m packageName version exact = []
    · simp [hf]
    · by_cases hd : dryRun = true
      · simp [hf, hd]
      · by_cases hw : w = true <;> simp [hf, hd, hw]

/-- In dry-run mode processProject performs no write: the filesystem
comes back unchanged. -/
theorem processProject_dry_fs (packageName : String) (version : JStr) (exact : Bool)
    (activeDeps : List DepType) (fs : FS) (p : String) :
    (processProject packageName version exact true activeDeps fs p).2 = fs := by
  simp only [processProject]
  cases h : fs p <;> simp
  split <;> rfl

/-- A live processProject leaves every other project's manifest
untouched. -/
theorem processProject_live_fs_other (packageName : String) (version : JStr)
    (exact : Bool) (activeDeps : List DepType) (fs : FS) (p q : String) (h : q ≠ p) :
    (processProject packageName version exact false activeDeps fs p).2 q = fs q := by
  simp only [processProject]
  cases hfs : fs p with
  | absent => rfl
  | unreadable => rfl
  | file m w =>
    by_cases hf : findPackage activeDeps m packageName version exact = []
    · simp [hf]
    · by_cases hw : w = true
      · simp [hf, hw, FS.update, h]
      · simp [hf, hw]

/-- When the project's manifest is writable, the live classification of
a project coincides with the dry-run classification. -/
theorem processProject_live_eq_dry (packageName : String) (version : JStr)
    (exact : Bool) (activeDeps : List DepType) (fs : FS) (p : String)
    (hw : writableAt fs p = true) :
    (processProject packageName version exact false activeDeps fs p).1 =
    (processProject packageName version exact true activeDeps fs p).1 := by
  simp only [processProject]
  cases hfs : fs p with
  | absent => rfl
  | unreadable => rfl
  | file m w =>
    have hw' : w = true := by simpa [writableAt, hfs] using hw
    subst hw'
    by_cases hf : findPackage activeDeps m packageName version exact = [] <;> simp [hf]

/-- In dry-run mode the whole loop performs no write. -/
theorem bumpLoop_dry_fs (packageName : String) (version : JStr) (exact : Bool)
    (activeDeps : List DepType) (fs : FS) (paths : List String) :
    (bumpLoop packageName version exact true activeDeps fs paths).2 = fs := by
  induction paths generalizing fs with
  | nil => rfl
  | cons p rest ih => simp [bumpLoop, processProject_dry_fs, ih]

/-- Core equivalence: over duplicate-free paths whose manifests are all
writable, the live loop classifies every project exactly as the dry
loop does, even though the live loop threads an evolving filesystem. -/
theorem bumpLoop_live_eq_dry (packageName : String) (version : JStr) (exact : Bool)
    (activeDeps : List DepType) (paths : List String) :
    ∀ fs₁ fs₂ : FS, (∀ p ∈ paths, fs₁ p = fs₂ p) →
    (∀ p ∈ paths, writableAt fs₂ p = true) → paths.Nodup →
    (bumpLoop packageName version exact false activeDeps fs₁ paths).1 =
    (bumpLoop packageName version exact true activeDeps fs₂ paths).1 := by
  induction paths with
  | nil => intro fs₁ fs₂ _ _ _; rfl
  | cons p rest ih =>
    intro fs₁ fs₂ hagree hw hnd
    have hp : fs₁ p = fs₂ p := hagree p (by simp)
    have hwp : writableAt fs₁ p = true := by
      have := hw p (by simp)
      simpa [writableAt, hp] using this
    have hhead :
        (processProject packageName version exact false activeDeps fs₁ p).1 =
        (processProject packageName version exact true activeDeps fs₂ p).1 := by
      rw [processProject_live_eq_dry packageName version exact activeDeps fs₁ p hwp]
      exact processProject_congr packageName version exact true activeDeps fs₁ fs₂ p hp
    have hrest :
        (bumpLoop packageName version exact false activeDeps
          (processProject packageName version exact false activeDeps fs₁ p).2 rest).1 =
        (bumpLoop packageName version exact true activeDeps
          (processProject packageName version exact true activeDeps fs₂ p).2 rest).1 := by
      apply ih
      · intro q hq
        have hqp : q ≠ p := by
          intro hEq; subst hEq; exact (List.nodup_cons.mp hnd).1 hq
        rw [processProject_live_fs_other packageName version exact activeDeps fs₁ p q hqp,
            processProject_dry_fs]
        exact hagree q (by simp [hq])
      · intro q hq
        rw [processProject_dry_fs]
        exact hw q (by simp [hq])
      · exact (List.nodup_cons.mp hnd).2
    simp only [bumpLoop]
    rw [hhead, hrest]

/-! ## Round-trip facts about the decimal printer -/

/-- The ten decimal digit characters. -/
def decDigits : JStr := ['0', '1', '2', '3', '4', '5', '6', '7', '8', '9']

theorem digitChar_mem_decDigits (d : Nat) : digitChar d ∈ decDigits := by
  unfold digitChar
  split <;> decide

theorem decDigit_isDigit {c : Char} (h : c ∈ decDigits) : c.isDigit = true := by
  simp only [decDigits, List.mem_cons, List.not_mem_nil, or_false] at h
  rcases h with rfl | rfl | rfl | rfl | rfl | rfl | rfl | rfl | rfl | rfl <;> decide

theorem decDigit_not_alpha {c : Char} (h : c ∈ decDigits) : c.isAlpha = false := by
  simp only [decDigits, List.mem_cons, List.not_mem_nil, or_false] at h
  rcases h with rfl | rfl | rfl | rfl | rfl | rfl | rfl | rfl | rfl | rfl <;> decide

theorem decDigit_not_mark {c : Char} (h : c ∈ decDigits) :
    ¬(c = 'v' ∨ c = '^' ∨ c = '~') := by
  simp only [decDigits, List.mem_cons, List.not_mem_nil, or_false] at h
  rcases h with rfl | rfl | rfl | rfl | rfl | rfl | rfl | rfl | rfl | rfl <;> decide

theorem val_digitChar (d : Nat) (h : d < 10) : (digitChar d).toNat - 48 = d := by
  interval_cases d <;> decide

theorem mem_natDigitsRev :
    ∀ (fuel n : Nat) (c : Char), c ∈ natDigitsRev fuel n → c ∈ decDigits := by
  intro fuel
  induction fuel with
  | zero => intro n c h; simp [natDigitsRev] at h
  | succ fuel ih =>
    intro n c h
    cases n with
    | zero => simp [natDigitsRev] at h
    | succ m =>
      simp only [natDigitsRev, List.mem_cons] at h
      rcases h with h | h
      · subst h; exact digitChar_mem_decDigits _
      · exact ih _ _ h

theorem foldr_natDigitsRev :
    ∀ fuel n, n ≤ fuel →
      (natDigitsRev fuel n).foldr (fun c a => a * 10 + (c.toNat - 48)) 0 = n := by
  intro fuel
  induction fuel with
  | zero => intro n h; simp [natDigitsRev]; omega
  | succ fuel ih =>
    intro n h
    cases n with
    | zero => simp [natDigitsRev]
    | succ m =>
      have h1 : (m + 1) / 10 ≤ fuel := by omega
      simp only [natDigitsRev, List.foldr_cons, ih _ h1,
        val_digitChar ((m + 1) % 10) (by omega)]
      omega

theorem mem_natToChars {n : Nat} {c : Char} (h : c ∈ natToChars n) : c ∈ decDigits := by
  unfold natToChars at h
  by_cases h0 : n = 0
  · simp [h0] at h; subst h; decide
  · simp only [h0, if_false, List.mem_reverse] at h
    exact mem_natDigitsRev _ _ _ h

theorem natToChars_ne_nil (n : Nat) : natToChars n ≠ [] := by
  unfold natToChars
  by_cases h0 : n = 0
  · simp [h0]
  · simp only [h0, if_false, ne_eq, List.reverse_eq_nil_iff]
    cases n with
    | zero => exact absurd rfl h0
    | succ m => simp [natDigitsRev]

theorem digitsToNat_natToChars (n : Nat) : digitsToNat (natToChars n) = n := by
  unfold natToChars digitsToNat
  by_cases h0 : n = 0
  · simp [h0]
  · simp only [h0, if_false, List.foldl_reverse]
    exact foldr_natDigitsRev n n (le_refl n)

/-! ## takeWhile and dropWhile across an all-satisfying block -/

theorem takeWhile_append_all (p : Char → Bool) :
    ∀ (l r : JStr), (∀ c ∈ l, p c = true) →
      (l ++ r).takeWhile p = l ++ r.takeWhile p := by
  intro l
  induction l with
  | nil => simp
  | cons c cs ih =>
    intro r h
    have hc : p c = true := h c (by simp)
    simp [List.takeWhile_cons, hc, ih r (fun x hx => h x (by simp [hx]))]

theorem dropWhile_append_all (p : Char → Bool) :
    ∀ (l r : JStr), (∀ c ∈ l, p c = true) →
      (l ++ r).dropWhile p = r.dropWhile p := by
  intro l
  induction l with
  | nil => simp
  | cons c cs ih =>
    intro r h
    have hc : p c = true := h c (by simp)
    simp [List.dropWhile_cons, hc, ih r (fun x hx => h x (by simp [hx]))]

theorem takeWhile_all (p : Char → Bool) (l : JStr) (h : ∀ c ∈ l, p c = true) :
    l.takeWhile p = l := by
  have := takeWhile_append_all p l [] h
  simpa using this

theorem dropWhile_all (p : Char → Bool) (l : JStr) (h : ∀ c ∈ l, p c = true) :
    l.dropWhile p = [] := by
  have := dropWhile_append_all p l [] h
  simpa using this

theorem takeWhile_digits_cons (n : Nat) (b : Char) (rest : JStr) (hb : b.isDigit = false) :
    (natToChars n ++ b :: rest).takeWhile Char.isDigit = natToChars n := by
  rw [takeWhile_append_all _ _ _ (fun c hc => decDigit_isDigit (mem_natToChars hc))]
  simp [List.takeWhile_cons, hb]

theorem dropWhile_digits_cons (n : Nat) (b : Char) (rest : JStr) (hb : b.isDigit = false) :
    (natToChars n ++ b :: rest).dropWhile Char.isDigit = b :: rest := by
  rw [dropWhile_append_all _ _ _ (fun c hc => decDigit_isDigit (mem_natToChars hc))]
  simp [List.dropWhile_cons, hb]

theorem takeWhile_digits_nil (n : Nat) :
    (natToChars n).takeWhile Char.isDigit = natToChars n :=
  takeWhile_all _ _ (fun _ hc => decDigit_isDigit (mem_natToChars hc))

theorem dropWhile_digits_nil (n : Nat) :
    (natToChars n).dropWhile Char.isDigit = [] :=
  dropWhile_all _ _ (fun _ hc => decDigit_isDigit (mem_natToChars hc))

theorem takeWhile_alpha_cons (tag : JStr) (h : ∀ c ∈ tag, c.isAlpha = true)
    (b : Char) (rest : JStr) (hb : b.isAlpha = false) :
    (tag ++ b :: rest).takeWhile Char.isAlpha = tag := by
  rw [takeWhile_append_all _ _ _ h]
  simp [List.takeWhile_cons, hb]

theorem dropWhile_alpha_cons (tag : JStr) (h : ∀ c ∈ tag, c.isAlpha = true)
    (b : Char) (rest : JStr) (hb : b.isAlpha = false) :
    (tag ++ b :: rest).dropWhile Char.isAlpha = b :: rest := by
  rw [dropWhile_append_all _ _ _ h]
  simp [List.dropWhile_cons, hb]

theorem stripLeadMark_digits (n : Nat) (r : JStr) :
    stripLeadMark (natToChars n ++ r) = natToChars n ++ r := by
  cases h : natToChars n with
  | nil => exact absurd h (natToChars_ne_nil n)
  | cons c cs =>
    have hc : c ∈ decDigits := mem_natToChars (by rw [h]; simp)
    simp only [List.cons_append, stripLeadMark]
    rw [if_neg (decDigit_not_mark hc)]

/-! ## The parse/format round trip -/

theorem jsNumToChars_small {n : Nat} (h : n < 10 ^ 21) :
    jsNumToChars n = natToChars n := by
  unfold jsNumToChars
  rw [if_pos h]

/-- The shape invariant every successful parse result satisfies: a
present prerelease tag is a nonempty all-alphabetic string, and an
ordinal occurs only together with a tag. -/
def GoodParsed (v : Parsed) : Prop :=
  (∀ tag, v.prerelease = some tag → tag ≠ [] ∧ ∀ c ∈ tag, c.isAlpha = true) ∧
  (v.prerelease = none → v.prereleaseNum = none)

theorem parseVersion_good (s : JStr) (v : Parsed) (h : parseVersion s = some v) :
    GoodParsed v := by
  simp only [parseVersion] at h
  split at h
  · exact absurd h (by simp)
  · split at h
    · exact absurd h (by simp)
    · split at h
      · exact absurd h (by simp)
      · split at h
        · exact absurd h (by simp)
        · split at h
          · exact absurd h (by simp)
          · split at h
            · exact absurd h (by simp)
            · split at h
              · exact absurd h (by simp)
              · split at h
                · -- r5 = []: no prerelease
                  obtain rfl := Option.some.inj h
                  exact ⟨fun tag htag => by simp at htag, fun _ => rfl⟩
                · split at h
                  · exact absurd h (by simp)
                  · split at h
                    · exact absurd h (by simp)
                    · rename_i hne
                      split at h
                      · -- r7 = []: tag, no ordinal
                        obtain rfl := Option.some.inj h
                        refine ⟨fun tag htag => ?_, fun hcontra => by simp at hcontra⟩
                        obtain rfl := Option.some.inj htag
                        exact ⟨hne, fun c hc => List.mem_takeWhile_imp hc⟩
                      · split at h
                        · split at h
                          · exact absurd h (by simp)
                          · split at h
                            · -- tag with ordinal
                              obtain rfl := Option.some.inj h
                              refine ⟨fun tag htag => ?_,
                                      fun hcontra => by simp at hcontra⟩
                              obtain rfl := Option.some.inj htag
                              exact ⟨hne, fun c hc => List.mem_takeWhile_imp hc⟩
                            · exact absurd h (by simp)
                        · exact absurd h (by simp)

theorem parseVersion_formatVersion (v : Parsed) (hg : GoodParsed v)
    (hM : v.major < 10 ^ 21) (hm : v.minor < 10 ^ 21) (hp : v.patch < 10 ^ 21)
    (hkb : ∀ k, v.prereleaseNum = some k → k < 10 ^ 21) :
    parseVersion (formatVersion v) = some v := by
  obtain ⟨M, m, p, pre, num⟩ := v
  dsimp only at hM hm hp hkb
  have hdotD : ('.' : Char).isDigit = false := by decide
  have hdashD : ('-' : Char).isDigit = false := by decide
  have hdotA : ('.' : Char).isAlpha = false := by decide
  cases pre with
  | none =>
    have hnum : num = none := hg.2 rfl
    subst hnum
    simp only [formatVersion, jsNumToChars_small hM, jsNumToChars_small hm,
      jsNumToChars_small hp]
    simp only [parseVersion, List.append_assoc, List.cons_append,
      stripLeadMark_digits, takeWhile_digits_cons _ _ _ hdotD,
      dropWhile_digits_cons _ _ _ hdotD,
      takeWhile_digits_nil, dropWhile_digits_nil,
      eq_false (natToChars_ne_nil M), eq_false (natToChars_ne_nil m),
      eq_false (natToChars_ne_nil p), if_false, digitsToNat_natToChars]
    simp
  | some tag =>
    obtain ⟨htagne, htagalpha⟩ := hg.1 tag rfl
    have hisEmpty : tag.isEmpty = false := by
      cases tag with
      | nil => exact absurd rfl htagne
      | cons c cs => rfl
    cases num with
    | none =>
      simp only [formatVersion, hisEmpty, Bool.false_eq_true, if_false,
        List.append_nil, jsNumToChars_small hM, jsNumToChars_small hm,
        jsNumToChars_small hp]
      simp only [parseVersion, List.append_assoc, List.cons_append,
        stripLeadMark_digits, takeWhile_digits_cons _ _ _ hdotD,
        dropWhile_digits_cons _ _ _ hdotD,
        takeWhile_digits_cons _ _ _ hdashD, dropWhile_digits_cons _ _ _ hdashD,
        takeWhile_all _ tag htagalpha, dropWhile_all _ tag htagalpha,
        eq_false (natToChars_ne_nil M), eq_false (natToChars_ne_nil m),
        eq_false (natToChars_ne_nil p), eq_false htagne, if_false,
        digitsToNat_natToChars]
      simp
    | some k =>
      have hkk : k < 10 ^ 21 := hkb k rfl
      simp only [formatVersion, hisEmpty, Bool.false_eq_true, if_false,
        jsNumToChars_small hM, jsNumToChars_small hm, jsNumToChars_small hp,
        jsNumToChars_small hkk]
      simp only [parseVersion, List.append_assoc, List.cons_append,
        stripLeadMark_digits, takeWhile_digits_cons _ _ _ hdotD,
        dropWhile_digits_cons _ _ _ hdotD,
        takeWhile_digits_cons _ _ _ hdashD, dropWhile_digits_cons _ _ _ hdashD,
        takeWhile_alpha_cons tag htagalpha _ _ hdotA,
        dropWhile_alpha_cons tag htagalpha _ _ hdotA,
        takeWhile_digits_nil, dropWhile_digits_nil,
        eq_false (natToChars_ne_nil M), eq_false (natToChars_ne_nil m),
        eq_false (natToChars_ne_nil p), eq_false (natToChars_ne_nil k),
        eq_false htagne, if_false, digitsToNat_natToChars]
      simp

/-! # Claims -/

/-- Filesystem with a single writable project C already holding exactly
the computed target string. -/
def fsC : FS := fun p => if p = "C" then .file pkgC true else .absent

/-- C1.  The claim states that bumpDependency classifies every targeted
project into exactly one of FOUR lists updated/skipped/not-found/errored.
The source's result object has only the three lists updated/notFound/
errors (see the Results structure, which mirrors it), and a project that
is already at the target lands in updated.  Evaluated on the spec's own
three-project example: A (two categories below target) is updated, B
(package absent) is notFound, C (already at the computed target) is
recorded in updated — not in any skipped list, which does not exist. -/
theorem c1_result_has_no_skipped_list :
    (bumpDependency "react" (strL "18.2.0") ["A", "B", "C"] false false false fsABC).1 =
      ⟨[⟨"A", [⟨.dependencies, strL "^18.1.0", strL "^18.2.0"⟩,
               ⟨.devDependencies, strL "^18.1.0", strL "^18.2.0"⟩], "A/package.json"⟩,
        ⟨"C", [⟨.dependencies, strL "^18.2.0", strL "^18.2.0"⟩], "C/package.json"⟩],
       [⟨"B"⟩], []⟩ := by decide

/-- C2.  The claim states that a project all of whose matched categories
already equal the computed new string is classified skipped, and that an
equal category is never counted as an updated category.  The source has
no such check: project C, whose single matched category already equals
the computed string caret-18.2.0, is classified updated with that
category in the change list (from = to). -/
theorem c2_already_at_target_counted_as_updated :
    (bumpDependency "react" (strL "18.2.0") ["C"] false false false fsC).1 =
      ⟨[⟨"C", [⟨.dependencies, strL "^18.2.0", strL "^18.2.0"⟩], "C/package.json"⟩],
       [], []⟩ := by decide

/-- C3.  The claim states that in apply mode bumpProjectVersion delegates
the mutation to an external package-tooling command and re-reads the
manifest to report the authoritative value.  The source instead computes
the new version itself with suggestNextVersion, assigns it to the version
field, writes the manifest directly, and reports its own computation:
evaluated at a project at 1.0.0 with a patch bump, the reported new
version is exactly the engine's own suggestNextVersion result and the
filesystem mutation is the direct field assignment. -/
theorem c3_apply_mode_writes_directly :
    (bumpProjectVersion "A" (strL "patch") (strL "rc") false fsABC).1 =
      ⟨true, some (strL "1.0.0"), some (strL "1.0.1"), some "A/package.json", none⟩ ∧
    (bumpProjectVersion "A" (strL "patch") (strL "rc") false fsABC).1.newVersion =
      suggestNextVersion (strL "1.0.0") (strL "patch") (strL "rc") ∧
    (bumpProjectVersion "A" (strL "patch") (strL "rc") false fsABC).2 "A" =
      .file (setVersionField pkgA (strL "1.0.1")) true := by decide

/-- C4.  For every target version, exactness flag and category,
getVersionForType gives the peer category the caret-prefixed form
regardless of the flag, and gives every other category the version
verbatim when exact is true and the caret form when it is false. -/
theorem c4_peer_always_caret (version : JStr) (exact : Bool) :
    (∀ e : Bool, getVersionForType version e DepType.peerDependencies = '^' :: version) ∧
    (∀ t : DepType, t ≠ DepType.peerDependencies →
       getVersionForType version true t = version ∧
       getVersionForType version false t = '^' :: version) := by
  refine ⟨fun e => rfl, fun t ht => ?_⟩
  cases t with
  | peerDependencies => exact absurd rfl ht
  | dependencies => exact ⟨rfl, rfl⟩
  | devDependencies => exact ⟨rfl, rfl⟩
  | optionalDependencies => exact ⟨rfl, rfl⟩

/-- Witness for C4 at version 18.2.0: peer stays caret-prefixed under
exact, an ordinary dependency is pinned verbatim. -/
theorem c4_peer_always_caret_witness :
    getVersionForType (strL "18.2.0") true DepType.peerDependencies = strL "^18.2.0" ∧
    getVersionForType (strL "18.2.0") true DepType.dependencies = strL "18.2.0" := by
  have h := c4_peer_always_caret (strL "18.2.0") true
  exact ⟨by simpa using h.1 true, (h.2 DepType.dependencies (by decide)).1⟩

/-- Counterexample to C5 as stated: with the same project path listed
twice, every live write succeeds (no write errors, the manifest is
writable), yet the dry-run result differs from the live result — the
second live iteration re-reads the already-updated manifest and reports
from = 2.0.0 where the dry run reports from = 1.0.0. -/
theorem c5_counterexample_duplicate_path :
    (∀ p ∈ ["D", "D"], writableAt fsD p = true) ∧
    (bumpDependency "react" (strL "2.0.0") ["D", "D"] true false false fsD).1.errors
      = [] ∧
    (bumpDependency "react" (strL "2.0.0") ["D", "D"] true true false fsD).1 ≠
    (bumpDependency "react" (strL "2.0.0") ["D", "D"] true false false fsD).1 := by
  decide

/-- C5 (amended: provided no two input paths name the same manifest,
i.e. the path list is duplicate-free).  On every input whose targeted
manifests are all writable — so that every live-mode write succeeds —
the dry run returns exactly the live run's results and performs zero
filesystem writes, leaving every manifest unchanged. -/
theorem c5_dry_run_equals_live (packageName : String) (version : JStr)
    (paths : List String) (exact noPeer : Bool) (fs : FS)
    (hnd : paths.Nodup) (hw : ∀ p ∈ paths, writableAt fs p = true) :
    (bumpDependency packageName version paths exact true noPeer fs).1 =
    (bumpDependency packageName version paths exact false noPeer fs).1 ∧
    (bumpDependency packageName version paths exact true noPeer fs).2 = fs := by
  simp only [bumpDependency]
  constructor
  · exact (bumpLoop_live_eq_dry packageName version exact _ paths fs fs
      (fun _ _ => rfl) hw hnd).symm
  · exact bumpLoop_dry_fs packageName version exact _ fs paths

/-- Witness for C5 on the three-project fixture: duplicate-free paths,
all manifests writable, and the dry-run results coincide with live. -/
theorem c5_dry_run_equals_live_witness :
    (bumpDependency "react" (strL "18.2.0") ["A", "B", "C"] false true false fsABC).1 =
    (bumpDependency "react" (strL "18.2.0") ["A", "B", "C"] false false false fsABC).1 ∧
    (bumpDependency "react" (strL "18.2.0") ["A", "B", "C"] false true false fsABC).2 =
      fsABC :=
  c5_dry_run_equals_live "react" (strL "18.2.0") ["A", "B", "C"] false false fsABC
    (by decide) (by decide)

/-- Counterexample to C6 as stated: old 2.0.0-rc.0 carries a prerelease,
new 1.0.0 does not and is a strict downgrade of the triple (no
component-wise increase), yet getVersionChangeType returns patch, not
unknown — the source never compares the triples in its fallback. -/
theorem c6_counterexample_downgrade_patch :
    getVersionChangeType (strL "2.0.0-rc.0") (strL "1.0.0") = ChangeType.patch ∧
    parseVersion (strL "2.0.0-rc.0") = some ⟨2, 0, 0, some (strL "rc"), some 0⟩ ∧
    parseVersion (strL "1.0.0") = some ⟨1, 0, 0, none, none⟩ := by decide

/-- C6 (amended): whenever both versions parse, the new version carries
no (truthy) prerelease, none of the three component-wise increase rules
fires, and the old version carries a prerelease, getVersionChangeType
returns patch — regardless of the triples, downgrades included; unknown
is never returned in this situation. -/
theorem c6_prerelease_drop_always_patch (oldV newV : JStr) (op np : Parsed)
    (ho : parseVersion oldV = some op) (hn : parseVersion newV = some np)
    (hnp : strTruthy np.prerelease = false) (hop : strTruthy op.prerelease = true)
    (h1 : ¬ np.major > op.major)
    (h2 : ¬ (np.major = op.major ∧ np.minor > op.minor))
    (h3 : ¬ (np.major = op.major ∧ np.minor = op.minor ∧ np.patch > op.patch)) :
    getVersionChangeType oldV newV = ChangeType.patch := by
  simp only [getVersionChangeType, ho, hn]
  simp [h1, h2, h3, hnp, hop]

/-- Witness for C6 at a minor-level downgrade out of a prerelease. -/
theorem c6_prerelease_drop_always_patch_witness :
    getVersionChangeType (strL "1.1.0-beta") (strL "1.0.0") = ChangeType.patch :=
  c6_prerelease_drop_always_patch (strL "1.1.0-beta") (strL "1.0.0")
    ⟨1, 1, 0, some (strL "beta"), none⟩ ⟨1, 0, 0, none, none⟩
    (by decide) (by decide) (by decide) (by decide) (by decide) (by decide) (by decide)

/-- C7.  The claim states that with equal triples and equal tags an
ordinal-less prerelease compares strictly lower than ordinal 0.  The
source coerces a missing ordinal with (x or-else 0), so 1.0.0-rc versus
1.0.0-rc.0 returns 1 (greater) — and returns 1 with the arguments
swapped as well, contradicting the function's documented -1/0/1
comparison contract. -/
theorem c7_missing_ordinal_vs_zero_compares_greater :
    compareVersions (strL "1.0.0-rc") (strL "1.0.0-rc.0") = 1 ∧
    compareVersions (strL "1.0.0-rc.0") (strL "1.0.0-rc") = 1 := by decide

/-- Counterexample to C8 as stated: the parser accepts the 22-digit
numeral 10^21 (an exactly representable double, so parseInt is exact
here), but JavaScript renders integers at and above 10^21 in exponential
notation, so the formatted form is 1e+21.0.0, which re-parses to null
instead of the original parse result. -/
theorem c8_counterexample_exponential_rendering :
    parseVersion (strL "1000000000000000000000.0.0") =
      some ⟨10 ^ 21, 0, 0, none, none⟩ ∧
    formatVersion ⟨10 ^ 21, 0, 0, none, none⟩ = strL "1e+21.0.0" ∧
    parseVersion (formatVersion ⟨10 ^ 21, 0, 0, none, none⟩) = none := by decide

/-- C8 (amended: restricted to accepted strings whose numeric
components are at most Number.MAX_SAFE_INTEGER, 2^53 - 1 — the regime
in which parseInt is exact and interpolation prints plain decimal).  For
every such string, re-parsing the formatted form of the parse result
reproduces the parse result: parse after format after parse equals
parse, including inputs with a leading v/caret/tilde mark and either
prerelease-ordinal separator. -/
theorem c8_parse_format_roundtrip (s : JStr) (v : Parsed)
    (h : parseVersion s = some v)
    (hM : v.major ≤ 2 ^ 53 - 1) (hm : v.minor ≤ 2 ^ 53 - 1)
    (hp : v.patch ≤ 2 ^ 53 - 1)
    (hk : ∀ k, v.prereleaseNum = some k → k ≤ 2 ^ 53 - 1) :
    parseVersion (formatVersion v) = parseVersion s := by
  rw [h]
  have hb : (2 : Nat) ^ 53 - 1 < 10 ^ 21 := by norm_num
  exact parseVersion_formatVersion v (parseVersion_good s v h)
    (lt_of_le_of_lt hM hb) (lt_of_le_of_lt hm hb) (lt_of_le_of_lt hp hb)
    (fun k hkeq => lt_of_le_of_lt (hk k hkeq) hb)

/-- Witness for C8 on v1.2.3-rc-4: leading v mark and dash ordinal
separator, all components far below the safe-integer bound, formatted
back to the canonical dot form and re-parsed. -/
theorem c8_parse_format_roundtrip_witness :
    parseVersion (strL "v1.2.3-rc-4") = some ⟨1, 2, 3, some (strL "rc"), some 4⟩ ∧
    parseVersion (formatVersion ⟨1, 2, 3, some (strL "rc"), some 4⟩) =
      parseVersion (strL "v1.2.3-rc-4") :=
  ⟨by decide,
   c8_parse_format_roundtrip (strL "v1.2.3-rc-4")
     ⟨1, 2, 3, some (strL "rc"), some 4⟩ (by decide) (by decide) (by decide)
     (by decide)
     (fun k hkeq => by obtain rfl := Option.some.inj hkeq; decide)⟩

/-- C9.  In the live push phase: pushToRemote is invoked only on
repository roots that passed the behind check (every traced push is on a
not-behind root); every distinct touched root that is behind is recorded
in the skipped list and never pushed; and the skipped and failed lists
have disjoint provenance — skipped holds exactly the behind roots,
failed exactly the not-behind roots whose push execution failed. -/
theorem c9_push_only_after_behind_check (env : GitEnv) (files : List String) :
    (∀ r ∈ (pushPhase env false files).2, env.isBehindRemote r = false) ∧
    (∀ r ∈ dedupRepoRoots env files, env.isBehindRemote r = true →
       env.basename r ∈ (pushPhase env false files).1.skipped ∧
       r ∉ (pushPhase env false files).2) ∧
    (pushPhase env false files).1.skipped =
      ((dedupRepoRoots env files).filter (fun r => env.isBehindRemote r)).map
        env.basename ∧
    (pushPhase env false files).1.failed =
      ((dedupRepoRoots env files).filter
        (fun r => !env.isBehindRemote r && !env.pushSucceeds r)).map env.basename := by
  have hchar := pushLoop_live_spec env files []
  simp only [pushPhase, dedupRepoRoots, hchar]
  refine ⟨?_, ?_, trivial, trivial⟩
  · intro r hr
    rw [List.mem_filter] at hr
    simpa using hr.2
  · intro r hr hb
    refine ⟨List.mem_map_of_mem _ (List.mem_filter.mpr ⟨hr, by simp [hb]⟩), ?_⟩
    intro hcon
    rw [List.mem_filter] at hcon
    simp [hb] at hcon

/-- A concrete two-repository environment: f1's branch is behind its
remote, f2's is not; every push execution would succeed. -/
def env0 : GitEnv :=
  ⟨fun d => d, fun d => d, fun _ => true, fun d => d,
   fun r => r == "f1", fun _ => true⟩

/-- Witness for C9: in the concrete environment the behind repository f1
is recorded in skipped and no push is attempted on it. -/
theorem c9_push_only_after_behind_check_witness :
    env0.basename "f1" ∈ (pushPhase env0 false ["f1", "f2"]).1.skipped ∧
    "f1" ∉ (pushPhase env0 false ["f1", "f2"]).2 :=
  (c9_push_only_after_behind_check env0 ["f1", "f2"]).2.1 "f1" (by decide) (by decide)

/-- C10.  Whenever at least one of the two inputs fails to parse,
compareVersions returns 0 — an unparseable string compares equal to
every other string instead of signalling an error. -/
theorem c10_unparseable_compares_equal (a b : JStr)
    (h : parseVersion a = none ∨ parseVersion b = none) :
    compareVersions a b = 0 := by
  cases hpa : parseVersion a <;> cases hpb : parseVersion b <;>
    simp_all [compareVersions]

/-- Witness for C10: a non-version string compares equal to 1.2.3. -/
theorem c10_unparseable_compares_equal_witness :
    parseVersion (strL "not-a-version") = none ∧
    compareVersions (strL "not-a-version") (strL "1.2.3") = 0 :=
  ⟨by decide, c10_unparseable_compares_equal _ _ (Or.inl (by decide))⟩

end DepSync
